import Mathlib

/-!
Verification of the Coach Tracker application (COACH_TRACKER.py).

The program is a single-file Streamlit dashboard over an SQLite database with
two tables, `coaches` and `movements`.  All of its behaviour is direct SQL
against those tables, so we embed the store as explicit Lean state:

* `CoachRow` / `MovementRow` mirror the two table schemas
  (`id INTEGER PRIMARY KEY AUTOINCREMENT` is modelled by a `Nat` id drawn from
  an explicit per-table counter in `DB`);
* each user-triggered handler (the body of an `st.button(...)` branch) becomes
  a pure function from the old state and the user inputs to the new state and
  the UI message the handler emits (`st.success` / `st.warning` / `st.info`);
* `datetime.now()` is an environment read: the handler for the Update Movement
  tab reads the clock twice (lines 139-140 of the source), so the embedded
  `record_movement` takes the two formatted clock readings `now1`, `now2` as
  explicit arguments;
* SQLite compares TEXT values bytewise; for the UTF-8 strings used here this
  agrees with the lexicographic order on Lean `String`, which we use for the
  `BETWEEN` filter of the Reports tab.

SELECT-only paths (Dashboard, Coach Details, Reports) are functions of the
state that do not produce a new state.
-/

/-- A row of the `coaches` table:
`id INTEGER PRIMARY KEY AUTOINCREMENT, coach_no TEXT, coach_type TEXT,
date_in TEXT, current_shop TEXT` (source lines 15-23).  `coach_no` carries no
UNIQUE constraint, so duplicates are representable. -/
structure CoachRow where
  id : Nat
  coach_no : String
  coach_type : String
  date_in : String
  current_shop : String
deriving DecidableEq, Repr

/-- A row of the `movements` table:
`id INTEGER PRIMARY KEY AUTOINCREMENT, coach_no TEXT, shop_in TEXT,
shop_out TEXT, work_done TEXT, time_in TEXT, time_out TEXT`
(source lines 25-35). -/
structure MovementRow where
  id : Nat
  coach_no : String
  shop_in : String
  shop_out : String
  work_done : String
  time_in : String
  time_out : String
deriving DecidableEq, Repr

/-- The database state: the rows of both tables in rowid (= insertion) order,
plus the AUTOINCREMENT counters. -/
structure DB where
  coaches : List CoachRow
  movements : List MovementRow
  nextCoachId : Nat
  nextMovementId : Nat
deriving DecidableEq, Repr

/-- The message a handler reports to the operator:
`st.success`, `st.warning` or `st.info`. -/
inductive UiMsg where
  | success (msg : String)
  | warning (msg : String)
  | info (msg : String)
deriving DecidableEq, Repr

/-- Add Coach handler (source lines 113-120).  Python truthiness of the two
`st.text_input` strings (`if coach_no and shop:`) is non-emptiness.  On
success it runs
`INSERT INTO coaches (coach_no, coach_type, date_in, current_shop) VALUES (?,?,?,?)`
and reports success; otherwise it reports a warning and touches nothing. -/
def add_coach (db : DB) (coach_no coach_type date_in shop : String) :
    DB × UiMsg :=
  if coach_no ≠ "" ∧ shop ≠ "" then
    ({ db with
        coaches := db.coaches ++
          [⟨db.nextCoachId, coach_no, coach_type, date_in, shop⟩],
        nextCoachId := db.nextCoachId + 1 },
     UiMsg.success ("✅ Coach " ++ coach_no ++ " added!"))
  else
    (db, UiMsg.warning "Please fill in all details.")

/-- Update Movement handler (source lines 137-149).  On
`if shop_in and shop_out:` it reads the clock twice
(`time_in = datetime.now()...`, `time_out = datetime.now()...`, lines
139-140; the two formatted readings are the arguments `now1`, `now2`), runs
`INSERT INTO movements (coach_no, shop_in, shop_out, work_done, time_in, time_out) VALUES (?,?,?,?,?,?)`
followed by
`UPDATE coaches SET current_shop=? WHERE coach_no=?`, and reports success;
otherwise it reports a warning and touches nothing. -/
def record_movement (db : DB) (coach_no shop_out shop_in work_done : String)
    (now1 now2 : String) : DB × UiMsg :=
  if shop_in ≠ "" ∧ shop_out ≠ "" then
    ({ db with
        movements := db.movements ++
          [⟨db.nextMovementId, coach_no, shop_in, shop_out, work_done,
            now1, now2⟩],
        coaches := db.coaches.map (fun r =>
          if r.coach_no = coach_no then { r with current_shop := shop_in }
          else r),
        nextMovementId := db.nextMovementId + 1 },
     UiMsg.success ("✅ Movement updated for Coach " ++ coach_no))
  else
    (db, UiMsg.warning "Please fill in both shop fields.")

/-- Dashboard coaches table: `SELECT * FROM coaches` (source line 72). -/
def list_coaches (db : DB) : List CoachRow :=
  db.coaches

/-- Selection-control population for the Update Movement tab:
`SELECT coach_no FROM coaches` (source line 128). -/
def list_coach_numbers (db : DB) : List String :=
  db.coaches.map (·.coach_no)

/-- Coach Details handler: `SELECT * FROM movements WHERE coach_no=?`
(source line 161). -/
def get_movements_for (db : DB) (coach_no : String) : List MovementRow :=
  db.movements.filter (fun m => m.coach_no = coach_no)

/-- Reports query (source lines 189-197): the base query is
`SELECT * FROM coaches WHERE date_in BETWEEN ? AND ?` and
` AND coach_type=?` is appended exactly when the selected type is not the
sentinel `"All"`.  `BETWEEN` is inclusive on both ends. -/
def filter_coaches (db : DB) (start_date end_date coach_type_filter : String) :
    List CoachRow :=
  if coach_type_filter ≠ "All" then
    db.coaches.filter (fun r =>
      decide ((start_date ≤ r.date_in ∧ r.date_in ≤ end_date) ∧
        r.coach_type = coach_type_filter))
  else
    db.coaches.filter (fun r =>
      decide (start_date ≤ r.date_in ∧ r.date_in ≤ end_date))

/-- A store as seen by the startup code: each table either absent (`none`)
or present with its rows. -/
structure Store where
  coachesTab : Option (List CoachRow)
  movementsTab : Option (List MovementRow)
deriving DecidableEq, Repr

/-- Startup schema creation (source lines 15-36): two
`CREATE TABLE IF NOT EXISTS` statements.  An absent table is created empty; a
present table is left exactly as it is, rows included. -/
def ensure_schema (s : Store) : Store :=
  { coachesTab := some (s.coachesTab.getD []),
    movementsTab := some (s.movementsTab.getD []) }

/-- One user-triggered operation of the system.  The Dashboard, Coach Details
and Reports tabs only run SELECT statements, so their step leaves the
database unchanged; the two mutating handlers delegate to `add_coach` and
`record_movement`. -/
inductive Op where
  | addCoach (coach_no coach_type date_in shop : String)
  | recordMovement (coach_no shop_out shop_in work_done now1 now2 : String)
  | dashboard
  | coachDetails (coach_no : String)
  | reports (start_date end_date coach_type_filter : String)
deriving DecidableEq, Repr

/-- The state transition of one operation. -/
def step (db : DB) (op : Op) : DB :=
  match op with
  | .addCoach a b c d => (add_coach db a b c d).1
  | .recordMovement a b c d t1 t2 => (record_movement db a b c d t1 t2).1
  | .dashboard => db
  | .coachDetails _ => db
  | .reports _ _ _ => db

/-! ### Example data used to instantiate theorems with hypotheses -/

/-- The coach of the spec's worked scenario. -/
def exCoach : CoachRow := ⟨1, "C100", "AC", "2025-01-10", "Shop A"⟩

/-- A one-coach database as it stands after adding `exCoach`. -/
def exDB : DB := ⟨[exCoach], [], 2, 1⟩

/-! ### Claims about the Add Coach handler -/

/-- Claim C4: with non-empty `coach_no` and `shop`, `add_coach` followed by
`list_coaches` yields exactly one additional row, and that row has
`current_shop = shop`. -/
theorem add_coach_appends_one_row (db : DB)
    (coach_no coach_type date_in shop : String)
    (hcn : coach_no ≠ "") (hs : shop ≠ "") :
    list_coaches (add_coach db coach_no coach_type date_in shop).1
      = list_coaches db ++ [⟨db.nextCoachId, coach_no, coach_type, date_in, shop⟩]
    ∧ (list_coaches (add_coach db coach_no coach_type date_in shop).1).length
      = (list_coaches db).length + 1
    ∧ (⟨db.nextCoachId, coach_no, coach_type, date_in, shop⟩ : CoachRow).current_shop
      = shop := by
  unfold add_coach list_coaches
  rw [if_pos ⟨hcn, hs⟩]
  exact ⟨rfl, by simp, rfl⟩

theorem add_coach_appends_one_row_witness :
    list_coaches (add_coach exDB "C200" "Sleeper" "2025-02-01" "Shop C").1
      = list_coaches exDB ++ [⟨2, "C200", "Sleeper", "2025-02-01", "Shop C"⟩]
    ∧ (list_coaches (add_coach exDB "C200" "Sleeper" "2025-02-01" "Shop C").1).length
      = (list_coaches exDB).length + 1
    ∧ (⟨2, "C200", "Sleeper", "2025-02-01", "Shop C"⟩ : CoachRow).current_shop
      = "Shop C" :=
  add_coach_appends_one_row exDB "C200" "Sleeper" "2025-02-01" "Shop C"
    (by decide) (by decide)

/-- Claim C5: with empty `coach_no` or empty `shop`, `add_coach` mutates nothing,
reports the warning, and `list_coaches` is unchanged. -/
theorem add_coach_invalid_is_noop (db : DB)
    (coach_no coach_type date_in shop : String)
    (h : coach_no = "" ∨ shop = "") :
    (add_coach db coach_no coach_type date_in shop).1 = db
    ∧ (add_coach db coach_no coach_type date_in shop).2
      = UiMsg.warning "Please fill in all details."
    ∧ list_coaches (add_coach db coach_no coach_type date_in shop).1
      = list_coaches db := by
  unfold add_coach
  rw [if_neg (by tauto)]
  exact ⟨rfl, rfl, rfl⟩

theorem add_coach_invalid_is_noop_witness :
    (add_coach exDB "" "AC" "2025-02-01" "Shop C").1 = exDB
    ∧ (add_coach exDB "" "AC" "2025-02-01" "Shop C").2
      = UiMsg.warning "Please fill in all details."
    ∧ list_coaches (add_coach exDB "" "AC" "2025-02-01" "Shop C").1
      = list_coaches exDB :=
  add_coach_invalid_is_noop exDB "" "AC" "2025-02-01" "Shop C" (Or.inl rfl)

/-! ### Claims about the Update Movement handler -/

/-- Claim C1: a successful `record_movement` for a pre-existing coach sets that
coach's `current_shop` to `shop_in` and appends to its movement history one
row whose `shop_in`, `shop_out` and `work_done` match the arguments. -/
theorem record_movement_updates_coach_and_logs (db : DB)
    (coach_no shop_out shop_in work_done now1 now2 : String)
    (hsi : shop_in ≠ "") (hso : shop_out ≠ "")
    (_hex : ∃ r ∈ db.coaches, r.coach_no = coach_no) :
    (∀ r ∈ (record_movement db coach_no shop_out shop_in work_done now1 now2).1.coaches,
        r.coach_no = coach_no → r.current_shop = shop_in)
    ∧ ∃ m, get_movements_for
          (record_movement db coach_no shop_out shop_in work_done now1 now2).1 coach_no
        = get_movements_for db coach_no ++ [m]
      ∧ m.shop_in = shop_in ∧ m.shop_out = shop_out ∧ m.work_done = work_done := by
  unfold record_movement get_movements_for
  rw [if_pos ⟨hsi, hso⟩]
  constructor
  · intro r hr hrno
    rcases List.mem_map.mp hr with ⟨r0, hr0, rfl⟩
    by_cases h0 : r0.coach_no = coach_no
    · simp [h0]
    · rw [if_neg h0] at hrno ⊢
      exact absurd hrno h0
  · refine ⟨⟨db.nextMovementId, coach_no, shop_in, shop_out, work_done, now1, now2⟩,
      ?_, rfl, rfl, rfl⟩
    simp [List.filter_append]

theorem record_movement_updates_coach_and_logs_witness :
    (∀ r ∈ (record_movement exDB "C100" "Shop A" "Shop B" "Wheel check"
        "2025-01-10 09:00:00" "2025-01-10 09:00:00").1.coaches,
        r.coach_no = "C100" → r.current_shop = "Shop B")
    ∧ ∃ m, get_movements_for
          (record_movement exDB "C100" "Shop A" "Shop B" "Wheel check"
            "2025-01-10 09:00:00" "2025-01-10 09:00:00").1 "C100"
        = get_movements_for exDB "C100" ++ [m]
      ∧ m.shop_in = "Shop B" ∧ m.shop_out = "Shop A" ∧ m.work_done = "Wheel check" :=
  record_movement_updates_coach_and_logs exDB "C100" "Shop A" "Shop B" "Wheel check"
    "2025-01-10 09:00:00" "2025-01-10 09:00:00" (by decide) (by decide)
    ⟨exCoach, by simp [exDB], by decide⟩

/-- Helper for C2: the coach UPDATE is the identity when no row matches the
given coach number. -/
theorem map_update_no_match (l : List CoachRow) (coach_no shop_in : String)
    (h : ∀ r ∈ l, r.coach_no ≠ coach_no) :
    l.map (fun r =>
        if r.coach_no = coach_no then { r with current_shop := shop_in } else r)
      = l := by
  induction l with
  | nil => rfl
  | cons a t ih =>
    have ha : a.coach_no ≠ coach_no := h a (List.mem_cons_self a t)
    have ht : ∀ r ∈ t, r.coach_no ≠ coach_no :=
      fun r hr => h r (List.mem_cons_of_mem a hr)
    simp only [List.map_cons, if_neg ha, ih ht]

/-- Claim C2: a `record_movement` with valid shop fields but a coach number that
matches no coach row still inserts the movement row, leaves the coaches table
untouched (the UPDATE affects zero rows), and still reports success — no
error is surfaced. -/
theorem record_movement_missing_coach_silent (db : DB)
    (coach_no shop_out shop_in work_done now1 now2 : String)
    (hsi : shop_in ≠ "") (hso : shop_out ≠ "")
    (hnone : ∀ r ∈ db.coaches, r.coach_no ≠ coach_no) :
    (record_movement db coach_no shop_out shop_in work_done now1 now2).1.movements
      = db.movements ++
        [⟨db.nextMovementId, coach_no, shop_in, shop_out, work_done, now1, now2⟩]
    ∧ (record_movement db coach_no shop_out shop_in work_done now1 now2).1.coaches
      = db.coaches
    ∧ (record_movement db coach_no shop_out shop_in work_done now1 now2).2
      = UiMsg.success ("✅ Movement updated for Coach " ++ coach_no) := by
  unfold record_movement
  rw [if_pos ⟨hsi, hso⟩]
  exact ⟨rfl, map_update_no_match db.coaches coach_no shop_in hnone, rfl⟩

theorem record_movement_missing_coach_silent_witness :
    (record_movement exDB "C999" "Shop A" "Shop B" "Repaint"
        "2025-01-11 09:00:00" "2025-01-11 09:00:00").1.movements
      = exDB.movements ++
        [⟨1, "C999", "Shop B", "Shop A", "Repaint",
          "2025-01-11 09:00:00", "2025-01-11 09:00:00"⟩]
    ∧ (record_movement exDB "C999" "Shop A" "Shop B" "Repaint"
        "2025-01-11 09:00:00" "2025-01-11 09:00:00").1.coaches = exDB.coaches
    ∧ (record_movement exDB "C999" "Shop A" "Shop B" "Repaint"
        "2025-01-11 09:00:00" "2025-01-11 09:00:00").2
      = UiMsg.success ("✅ Movement updated for Coach " ++ "C999") :=
  record_movement_missing_coach_silent exDB "C999" "Shop A" "Shop B" "Repaint"
    "2025-01-11 09:00:00" "2025-01-11 09:00:00" (by decide) (by decide)
    (by decide)

/-- The per-row effect of `UPDATE coaches SET current_shop=? WHERE coach_no=?`
(source line 144). -/
def updFn (coach_no shop_in : String) (r : CoachRow) : CoachRow :=
  if r.coach_no = coach_no then { r with current_shop := shop_in } else r

/-- Claim C10: on a successful `record_movement`, the coach UPDATE rewrites every
row whose `coach_no` matches (all duplicates) to have `current_shop =
shop_in`, leaves all its other fields intact, and leaves non-matching rows
entirely unchanged. -/
theorem record_movement_coach_update_frame (db : DB)
    (coach_no shop_out shop_in work_done now1 now2 : String)
    (hsi : shop_in ≠ "") (hso : shop_out ≠ "") :
    (record_movement db coach_no shop_out shop_in work_done now1 now2).1.coaches
      = db.coaches.map (updFn coach_no shop_in)
    ∧ (∀ r : CoachRow, r.coach_no = coach_no →
        updFn coach_no shop_in r = { r with current_shop := shop_in })
    ∧ (∀ r : CoachRow, r.coach_no ≠ coach_no → updFn coach_no shop_in r = r)
    ∧ (∀ r : CoachRow,
        (updFn coach_no shop_in r).id = r.id
        ∧ (updFn coach_no shop_in r).coach_no = r.coach_no
        ∧ (updFn coach_no shop_in r).coach_type = r.coach_type
        ∧ (updFn coach_no shop_in r).date_in = r.date_in) := by
  unfold record_movement updFn
  rw [if_pos ⟨hsi, hso⟩]
  refine ⟨rfl, fun r hr => if_pos hr, fun r hr => if_neg hr, fun r => ?_⟩
  by_cases hr : r.coach_no = coach_no <;> simp [hr]

theorem record_movement_coach_update_frame_witness :
    (record_movement exDB "C100" "Shop A" "Shop B" "Wheel check"
        "2025-01-10 09:00:00" "2025-01-10 09:00:01").1.coaches
      = exDB.coaches.map (updFn "C100" "Shop B")
    ∧ (∀ r : CoachRow, r.coach_no = "C100" →
        updFn "C100" "Shop B" r = { r with current_shop := "Shop B" })
    ∧ (∀ r : CoachRow, r.coach_no ≠ "C100" → updFn "C100" "Shop B" r = r)
    ∧ (∀ r : CoachRow,
        (updFn "C100" "Shop B" r).id = r.id
        ∧ (updFn "C100" "Shop B" r).coach_no = r.coach_no
        ∧ (updFn "C100" "Shop B" r).coach_type = r.coach_type
        ∧ (updFn "C100" "Shop B" r).date_in = r.date_in) :=
  record_movement_coach_update_frame exDB "C100" "Shop A" "Shop B" "Wheel check"
    "2025-01-10 09:00:00" "2025-01-10 09:00:01" (by decide) (by decide)

/-! ### Movement-log immutability -/

/-- Claim C9: every operation of the system leaves the existing movement rows in
place and unchanged — the movements table only ever grows by appending, and
only `record_movement` appends (at most one row per call). -/
theorem movements_append_only (db : DB) (op : Op) :
    ∃ t, (step db op).movements = db.movements ++ t
      ∧ (t = [] ∨ ∃ m, t = [m]) := by
  cases op with
  | addCoach a b c d =>
    refine ⟨[], ?_, Or.inl rfl⟩
    show (add_coach db a b c d).1.movements = db.movements ++ []
    unfold add_coach
    split <;> simp
  | recordMovement a b c d t1 t2 =>
    show ∃ t, (record_movement db a b c d t1 t2).1.movements
      = db.movements ++ t ∧ (t = [] ∨ ∃ m, t = [m])
    unfold record_movement
    by_cases h : c ≠ "" ∧ b ≠ ""
    · rw [if_pos h]
      exact ⟨[⟨db.nextMovementId, a, c, b, d, t1, t2⟩], rfl, Or.inr ⟨_, rfl⟩⟩
    · rw [if_neg h]
      exact ⟨[], by simp, Or.inl rfl⟩
  | dashboard => exact ⟨[], by simp [step], Or.inl rfl⟩
  | coachDetails a => exact ⟨[], by simp [step], Or.inl rfl⟩
  | reports a b c => exact ⟨[], by simp [step], Or.inl rfl⟩

/-! ### Schema creation -/

/-- Claim C7: `ensure_schema` is idempotent: on a store where both tables exist it
is the identity (no side effects), a second call changes nothing further,
and existing rows of either table are preserved. -/
theorem ensure_schema_idempotent (s : Store) :
    (∀ lc lm, s.coachesTab = some lc → s.movementsTab = some lm →
      ensure_schema s = s)
    ∧ ensure_schema (ensure_schema s) = ensure_schema s
    ∧ (∀ lc, s.coachesTab = some lc → (ensure_schema s).coachesTab = some lc)
    ∧ (∀ lm, s.movementsTab = some lm → (ensure_schema s).movementsTab = some lm) := by
  obtain ⟨ct, mt⟩ := s
  refine ⟨fun lc lm hc hm => ?_, rfl, fun lc hc => ?_, fun lm hm => ?_⟩
  · cases hc
    cases hm
    rfl
  · cases hc
    rfl
  · cases hm
    rfl

theorem ensure_schema_idempotent_witness :
    ensure_schema ⟨some [exCoach], some []⟩ = ⟨some [exCoach], some []⟩ :=
  (ensure_schema_idempotent ⟨some [exCoach], some []⟩).1 [exCoach] [] rfl rfl

/-! ### Reports filter -/

/-- Claim C6: `filter_coaches` returns exactly the coaches whose `date_in` lies in
the inclusive range, further restricted to the chosen type unless the
sentinel `"All"` is selected. -/
theorem filter_coaches_characterisation (db : DB)
    (start_date end_date coach_type_filter : String) (r : CoachRow) :
    r ∈ filter_coaches db start_date end_date coach_type_filter ↔
      r ∈ db.coaches
      ∧ (start_date ≤ r.date_in ∧ r.date_in ≤ end_date)
      ∧ (coach_type_filter = "All" ∨ r.coach_type = coach_type_filter) := by
  unfold filter_coaches
  by_cases h : coach_type_filter = "All"
  · rw [if_neg (by simp [h])]
    simp [List.mem_filter, h]
  · rw [if_pos h]
    simp only [List.mem_filter, decide_eq_true_eq]
    constructor
    · rintro ⟨hm, ⟨hd, ht⟩⟩
      exact ⟨hm, hd, Or.inr ht⟩
    · rintro ⟨hm, hd, ht⟩
      rcases ht with ht | ht
      · exact absurd ht h
      · exact ⟨hm, hd, ht⟩

/-! ### Movement timestamps -/

/-- Claim C3 as stated is refuted: the handler reads the clock twice (source lines
139-140), once for `time_in` and once for `time_out`, so a successful call
whose two readings straddle a second boundary inserts a row with
`time_in ≠ time_out`. -/
theorem record_movement_two_clock_reads :
    (record_movement exDB "C100" "Shop A" "Shop B" "Wheel check"
        "2025-06-01 12:00:00" "2025-06-01 12:00:01").2
      = UiMsg.success ("✅ Movement updated for Coach " ++ "C100")
    ∧ ∃ m ∈ (record_movement exDB "C100" "Shop A" "Shop B" "Wheel check"
        "2025-06-01 12:00:00" "2025-06-01 12:00:01").1.movements,
      m.time_in ≠ m.time_out := by
  constructor
  · rfl
  · refine ⟨⟨1, "C100", "Shop B", "Shop A", "Wheel check",
      "2025-06-01 12:00:00", "2025-06-01 12:00:01"⟩, ?_, by decide⟩
    show _ ∈ (record_movement exDB "C100" "Shop A" "Shop B" "Wheel check"
      "2025-06-01 12:00:00" "2025-06-01 12:00:01").1.movements
    rw [record_movement, if_pos ⟨by decide, by decide⟩]
    simp [exDB]

/-- Claim C3 amended: a successful `record_movement` sets the inserted row's
`time_in` to the first clock reading taken at submission and `time_out` to
the second; the two coincide exactly when the two readings rendered the same
timestamp string (the usual case, but not guaranteed by the code). -/
theorem record_movement_sets_times (db : DB)
    (coach_no shop_out shop_in work_done now1 now2 : String)
    (hsi : shop_in ≠ "") (hso : shop_out ≠ "") :
    ∃ m, (record_movement db coach_no shop_out shop_in work_done now1 now2).1.movements
        = db.movements ++ [m]
      ∧ m.time_in = now1 ∧ m.time_out = now2
      ∧ (m.time_in = m.time_out ↔ now1 = now2) := by
  unfold record_movement
  rw [if_pos ⟨hsi, hso⟩]
  exact ⟨⟨db.nextMovementId, coach_no, shop_in, shop_out, work_done, now1, now2⟩,
    rfl, rfl, rfl, Iff.rfl⟩

theorem record_movement_sets_times_witness :
    ∃ m, (record_movement exDB "C100" "Shop A" "Shop B" "Wheel check"
        "2025-06-01 12:00:00" "2025-06-01 12:00:00").1.movements
        = exDB.movements ++ [m]
      ∧ m.time_in = "2025-06-01 12:00:00" ∧ m.time_out = "2025-06-01 12:00:00"
      ∧ (m.time_in = m.time_out ↔
          ("2025-06-01 12:00:00" : String) = "2025-06-01 12:00:00") :=
  record_movement_sets_times exDB "C100" "Shop A" "Shop B" "Wheel check"
    "2025-06-01 12:00:00" "2025-06-01 12:00:00" (by decide) (by decide)

/-! ### CSV export (Reports tab)

`df.to_csv(index=False).encode("utf-8")` (source line 222) serializes the
filtered coach rows: a header line `ID,Coach No,Type,Date In,Current Shop`,
then one line per row with the cells in schema order, each line terminated by
a newline.  Cells are escaped with minimal quoting: a cell containing the
delimiter, the quote character or a newline is wrapped in double quotes with
embedded quotes doubled; all other cells are written verbatim.  We model the
byte/character content of the file as a `List Char` (UTF-8 encoding of the
resulting string is injective, so round-tripping is settled at this level),
together with a standard CSV reader for the parsing direction. -/

/-- Minimal-quoting test: delimiter, quote char or newline in the cell. -/
def needsQuote (f : List Char) : Bool :=
  f.any (fun c => c == ',' || c == '"' || c == '\n')

/-- Double every quote character of a cell body. -/
def dq : List Char → List Char
  | [] => []
  | c :: cs => if c = '"' then '"' :: '"' :: dq cs else c :: dq cs

/-- Escape one cell for CSV output. -/
def escapeCell (f : List Char) : List Char :=
  if needsQuote f then '"' :: (dq f ++ ['"']) else f

/-- Render one record: escaped cells joined by commas. -/
def renderRecord : List (List Char) → List Char
  | [] => []
  | f :: fs =>
    match fs with
    | [] => escapeCell f
    | _ :: _ => escapeCell f ++ ',' :: renderRecord fs

/-- Render a sequence of records, each line terminated by a newline. -/
def renderRows : List (List (List Char)) → List Char
  | [] => []
  | r :: rs => renderRecord r ++ '\n' :: renderRows rs

/-- The cells of one exported coach row, in the DataFrame's column order
(source line 200). -/
def coachCells (r : CoachRow) : List (List Char) :=
  [(toString r.id).data, r.coach_no.data, r.coach_type.data,
   r.date_in.data, r.current_shop.data]

/-- The header cells (source line 200). -/
def headerCells : List (List Char) :=
  ["ID".data, "Coach No".data, "Type".data, "Date In".data,
   "Current Shop".data]

/-- The CSV download content produced by the Reports tab for a given result
set (source line 222). -/
def export_csv (rows : List CoachRow) : String :=
  String.mk (renderRows (headerCells :: rows.map coachCells))

/-- CSV reader, quoted-cell body: consumes up to the closing quote, reading a
doubled quote as an escaped quote character; `none` on an unterminated
cell. -/
def parseQuoted : List Char → Option (List Char × List Char)
  | [] => none
  | c :: cs =>
    if c = '"' then
      match cs with
      | [] => some ([], [])
      | c2 :: cs2 =>
        if c2 = '"' then (parseQuoted cs2).map (fun p => ('"' :: p.1, p.2))
        else some ([], c2 :: cs2)
    else
      (parseQuoted cs).map (fun p => (c :: p.1, p.2))

/-- CSV reader, unquoted cell: consumes up to the next delimiter or
newline. -/
def splitRaw : List Char → List Char × List Char
  | [] => ([], [])
  | c :: cs =>
    if c = ',' ∨ c = '\n' then ([], c :: cs)
    else ((splitRaw cs).1.cons c, (splitRaw cs).2)

/-- CSV reader, one cell: a quoted cell if it opens with a quote, otherwise a
raw cell. -/
def parseField (cs : List Char) : List Char × List Char :=
  match cs with
  | [] => ([], [])
  | c :: cs' =>
    if c = '"' then
      match parseQuoted cs' with
      | some p => p
      | none => (cs', [])
    else splitRaw (c :: cs')

/-- CSV reader, one record: cells separated by commas, ended by a newline or
the end of input.  Fuelled: one unit of fuel per cell. -/
def parseRecordA : Nat → List Char → List (List Char) × List Char
  | 0, cs => ([], cs)
  | n + 1, cs =>
    match (parseField cs).2 with
    | [] => ([(parseField cs).1], [])
    | c :: rest =>
      if c = ',' then
        ((parseField cs).1 :: (parseRecordA n rest).1, (parseRecordA n rest).2)
      else if c = '\n' then ([(parseField cs).1], rest)
      else ([(parseField cs).1], c :: rest)

/-- CSV reader, all records.  Fuelled: one unit of fuel per record. -/
def parseRowsA : Nat → List Char → List (List (List Char))
  | 0, _ => []
  | n + 1, cs =>
    if cs = [] then []
    else
      (parseRecordA cs.length cs).1 ::
        parseRowsA n (parseRecordA cs.length cs).2

/-- Parse a CSV document back into its records of string cells. -/
def csvParse (s : String) : List (List String) :=
  (parseRowsA s.data.length s.data).map (fun r => r.map (fun f => String.mk f))

/-- The shapes the input can take right after a rendered cell: end of record
list, a comma, or the record's terminating newline. -/
def restOk (rest : List Char) : Prop :=
  rest = [] ∨ (∃ r, rest = ',' :: r) ∨ (∃ r, rest = '\n' :: r)

theorem restOk_head {rest : List Char} (h : restOk rest) :
    rest.head? ≠ some '"' := by
  rcases h with rfl | ⟨r, rfl⟩ | ⟨r, rfl⟩ <;> simp

theorem parseQuoted_dq (f : List Char) :
    ∀ rest : List Char, rest.head? ≠ some '"' →
      parseQuoted (dq f ++ '"' :: rest) = some (f, rest) := by
  induction f with
  | nil =>
    intro rest h
    show parseQuoted ('"' :: rest) = some ([], rest)
    unfold parseQuoted
    rw [if_pos rfl]
    cases rest with
    | nil => rfl
    | cons c2 r2 =>
      have hc2 : c2 ≠ '"' := fun e => h (by rw [e]; rfl)
      dsimp only
      rw [if_neg hc2]
  | cons c f' ih =>
    intro rest h
    by_cases hc : c = '"'
    · subst hc
      have hdq : dq ('"' :: f') = '"' :: '"' :: dq f' := by
        rw [dq, if_pos rfl]
      rw [hdq, List.cons_append, List.cons_append]
      unfold parseQuoted
      rw [if_pos rfl]
      dsimp only
      rw [if_pos rfl, ih rest h]
      rfl
    · have hdq : dq (c :: f') = c :: dq f' := by
        rw [dq, if_neg hc]
      rw [hdq, List.cons_append]
      unfold parseQuoted
      rw [if_neg hc, ih rest h]
      rfl

theorem splitRaw_clean (f : List Char) (hf : ∀ c ∈ f, ¬(c = ',' ∨ c = '\n')) :
    ∀ rest : List Char, restOk rest → splitRaw (f ++ rest) = (f, rest) := by
  induction f with
  | nil =>
    intro rest hrest
    rcases hrest with rfl | ⟨r, rfl⟩ | ⟨r, rfl⟩
    · rfl
    · show splitRaw (',' :: r) = ([], ',' :: r)
      unfold splitRaw
      rw [if_pos (Or.inl rfl)]
    · show splitRaw ('\n' :: r) = ([], '\n' :: r)
      unfold splitRaw
      rw [if_pos (Or.inr rfl)]
  | cons c f' ih =>
    intro rest hrest
    have hc : ¬(c = ',' ∨ c = '\n') := hf c (List.mem_cons_self c f')
    have hf' : ∀ x ∈ f', ¬(x = ',' ∨ x = '\n') :=
      fun x hx => hf x (List.mem_cons_of_mem c hx)
    show splitRaw (c :: (f' ++ rest)) = (c :: f', rest)
    unfold splitRaw
    rw [if_neg hc, ih hf' rest hrest]

theorem needsQuote_false {f : List Char} (h : needsQuote f = false) :
    ∀ c ∈ f, c ≠ ',' ∧ c ≠ '"' ∧ c ≠ '\n' := by
  intro c hc
  have := List.any_eq_false.mp h c hc
  simp only [Bool.or_eq_true, beq_iff_eq] at this
  push_neg at this
  exact ⟨this.1.1, this.1.2, this.2⟩

theorem parseField_escape (f : List Char) (rest : List Char)
    (hrest : restOk rest) :
    parseField (escapeCell f ++ rest) = (f, rest) := by
  unfold escapeCell
  cases hq : needsQuote f with
  | true =>
    rw [if_pos rfl]
    show parseField ('"' :: (dq f ++ ['"']) ++ rest) = (f, rest)
    rw [List.cons_append, List.append_assoc, List.singleton_append]
    unfold parseField
    dsimp only
    rw [if_pos rfl, parseQuoted_dq f rest (restOk_head hrest)]
  | false =>
    rw [if_neg (by simp)]
    have hclean : ∀ c ∈ f, ¬(c = ',' ∨ c = '\n') := by
      intro c hc hor
      rcases needsQuote_false hq c hc with ⟨h1, _, h3⟩
      rcases hor with h | h
      · exact h1 h
      · exact h3 h
    cases f with
    | nil =>
      rcases hrest with rfl | ⟨r, rfl⟩ | ⟨r, rfl⟩
      · rfl
      · show parseField (',' :: r) = ([], ',' :: r)
        unfold parseField
        dsimp only
        rw [if_neg (by decide)]
        unfold splitRaw
        rw [if_pos (Or.inl rfl)]
      · show parseField ('\n' :: r) = ([], '\n' :: r)
        unfold parseField
        dsimp only
        rw [if_neg (by decide)]
        unfold splitRaw
        rw [if_pos (Or.inr rfl)]
    | cons c f' =>
      have hcq : c ≠ '"' := (needsQuote_false hq c (List.mem_cons_self c f')).2.1
      show parseField (c :: (f' ++ rest)) = (c :: f', rest)
      unfold parseField
      dsimp only
      rw [if_neg hcq]
      exact splitRaw_clean (c :: f') hclean rest hrest

theorem parseRecordA_render (r : List (List Char)) :
    ∀ (rest : List Char) (n : Nat), r ≠ [] → r.length ≤ n →
      parseRecordA n (renderRecord r ++ '\n' :: rest) = (r, rest) := by
  induction r with
  | nil => intro rest n hr _; exact absurd rfl hr
  | cons f fs ih =>
    intro rest n _ hn
    have hn1 : 1 ≤ n := by
      simp only [List.length_cons] at hn
      omega
    obtain ⟨n', rfl⟩ : ∃ n', n = n' + 1 := ⟨n - 1, by omega⟩
    cases fs with
    | nil =>
      show parseRecordA (n' + 1) (escapeCell f ++ '\n' :: rest) = ([f], rest)
      unfold parseRecordA
      rw [parseField_escape f ('\n' :: rest) (Or.inr (Or.inr ⟨rest, rfl⟩))]
      dsimp only
      rw [if_neg (by decide), if_pos rfl]
    | cons g fs' =>
      show parseRecordA (n' + 1)
          ((escapeCell f ++ ',' :: renderRecord (g :: fs')) ++ '\n' :: rest)
        = (f :: g :: fs', rest)
      rw [List.append_assoc, List.cons_append]
      unfold parseRecordA
      rw [parseField_escape f (',' :: (renderRecord (g :: fs') ++ '\n' :: rest))
        (Or.inr (Or.inl ⟨renderRecord (g :: fs') ++ '\n' :: rest, rfl⟩))]
      dsimp only
      rw [if_pos rfl,
        ih rest n' (by simp) (by simp only [List.length_cons] at hn ⊢; omega)]

theorem renderRecord_length (r : List (List Char)) :
    r.length ≤ (renderRecord r).length + 1 := by
  induction r with
  | nil => simp [renderRecord]
  | cons f fs ih =>
    cases fs with
    | nil => simp [renderRecord]
    | cons g fs' =>
      show (g :: fs').length + 1
        ≤ (escapeCell f ++ ',' :: renderRecord (g :: fs')).length + 1
      simp only [List.length_append, List.length_cons] at ih ⊢
      omega

theorem renderRows_length (rs : List (List (List Char))) :
    rs.length ≤ (renderRows rs).length := by
  induction rs with
  | nil => simp [renderRows]
  | cons r rs ih =>
    show rs.length + 1 ≤ (renderRecord r ++ '\n' :: renderRows rs).length
    simp only [List.length_append, List.length_cons]
    omega

theorem parseRowsA_render (rows : List (List (List Char))) :
    ∀ n : Nat, rows.length ≤ n → (∀ r ∈ rows, r ≠ []) →
      parseRowsA n (renderRows rows) = rows := by
  induction rows with
  | nil =>
    intro n _ _
    cases n with
    | zero => rfl
    | succ n =>
      show parseRowsA (n + 1) [] = []
      unfold parseRowsA
      rw [if_pos rfl]
  | cons row rows ih =>
    intro n hn hne
    have hn1 : 1 ≤ n := by
      simp only [List.length_cons] at hn
      omega
    obtain ⟨n', rfl⟩ : ∃ n', n = n' + 1 := ⟨n - 1, by omega⟩
    show parseRowsA (n' + 1) (renderRecord row ++ '\n' :: renderRows rows)
      = row :: rows
    have hcs : renderRecord row ++ '\n' :: renderRows rows ≠ [] := by simp
    unfold parseRowsA
    rw [if_neg hcs]
    have hfuel : row.length
        ≤ (renderRecord row ++ '\n' :: renderRows rows).length := by
      have := renderRecord_length row
      simp only [List.length_append, List.length_cons]
      omega
    rw [parseRecordA_render row (renderRows rows)
      (renderRecord row ++ '\n' :: renderRows rows).length
      (hne row (List.mem_cons_self row rows)) hfuel]
    dsimp only
    rw [ih n' (by simp only [List.length_cons] at hn; omega)
      (fun r hr => hne r (List.mem_cons_of_mem row hr))]

/-- Claim C8: the CSV export opens with exactly the header line
`ID,Coach No,Type,Date In,Current Shop`, continues with one line per coach in
result-set order, and parsing the document back yields exactly the header row
followed by the original rows with the original column order — for every
result set, including cells needing quoting. -/
theorem export_csv_round_trip (rows : List CoachRow) :
    export_csv rows
      = String.mk (("ID,Coach No,Type,Date In,Current Shop\n").data
          ++ renderRows (rows.map coachCells))
    ∧ csvParse (export_csv rows)
      = ["ID", "Coach No", "Type", "Date In", "Current Shop"]
        :: rows.map (fun r =>
            [toString r.id, r.coach_no, r.coach_type, r.date_in,
             r.current_shop]) := by
  constructor
  · have hh : renderRecord headerCells ++ ['\n']
        = ("ID,Coach No,Type,Date In,Current Shop\n").data := by decide
    show String.mk
        (renderRecord headerCells ++ '\n' :: renderRows (rows.map coachCells))
      = _
    rw [← hh, List.append_assoc, List.singleton_append]
  · have hlen : (headerCells :: rows.map coachCells).length
        ≤ (renderRows (headerCells :: rows.map coachCells)).length :=
      renderRows_length _
    have hne : ∀ r ∈ headerCells :: rows.map coachCells, r ≠ [] := by
      intro r hr
      rcases List.mem_cons.mp hr with rfl | hr
      · simp [headerCells]
      · rcases List.mem_map.mp hr with ⟨x, _, rfl⟩
        simp [coachCells]
    show (parseRowsA (renderRows (headerCells :: rows.map coachCells)).length
        (renderRows (headerCells :: rows.map coachCells))).map
        (fun r => r.map (fun f => String.mk f)) = _
    rw [parseRowsA_render (headerCells :: rows.map coachCells)
      (renderRows (headerCells :: rows.map coachCells)).length hlen hne]
    simp only [List.map_cons, List.map_map]
    rfl
